import Mathlib

/-!
# Verification of the Tower-Exchange recurring-order service

Shallow embedding of the recurring-order service of the Tower-Exchange
repository (`lib/recurringOrderService.ts`, the execution configuration in
`config.ts`, and the order-creation UI handlers in `RecurringBuys.tsx` /
`RecurringSell.tsx`), together with proofs of the specified properties.

Time is modelled as an integer count of milliseconds since the Unix epoch,
and the JavaScript `Date` field getters/setters used by the source are
modelled after their ECMA-262 definitions, evaluated in UTC (the reference
deployment runs the scheduler in UTC; local-time daylight-saving shifts are
an environment concern outside this model).  Proleptic-Gregorian
civil-date/day-number conversions follow the standard era-based algorithm;
`daysFromCivil` is affine in the day argument, which coincides with
ECMA-262 `MakeDay`'s handling of out-of-range day values (this is exactly
how `setDate`/`setMonth` normalise overflowing fields).
-/

/-- Days since 1970-01-01 of a proleptic-Gregorian civil date
(`m` is 1-based).  Standard era-based formula; affine in `d`. -/
def daysFromCivil (y m d : Int) : Int :=
  let y' := if m ≤ 2 then y - 1 else y
  let era := y' / 400
  let yoe := y' - era * 400
  let mp := if m > 2 then m - 3 else m + 9
  let doy := (153 * mp + 2) / 5 + d - 1
  let doe := yoe * 365 + yoe / 4 - yoe / 100 + doy
  era * 146097 + doe - 719468

/-- Civil date `(year, month, day)` from a day number (inverse of
`daysFromCivil`), layered by 400-year era, century, 4-year quad and year. -/
def civilFromDays (z : Int) : Int × Int × Int :=
  let z' := z + 719468
  let era := z' / 146097
  let doe := z' - era * 146097
  let c := (doe - doe / 146096) / 36524
  let doc := doe - 36524 * c
  let j := doc / 1461
  let dq := doc - 1461 * j
  let i := (dq - dq / 1460) / 365
  let yoe := 100 * c + 4 * j + i
  let doy := dq - 365 * i
  let mp := (5 * doy + 2) / 153
  let d := doy - (153 * mp + 2) / 5 + 1
  let m := mp + (if mp < 10 then 3 else -9)
  (if m ≤ 2 then yoe + era * 400 + 1 else yoe + era * 400, m, d)

def msPerSecond : Int := 1000
def msPerMinute : Int := 60000
def msPerHour : Int := 3600000
def msPerDay : Int := 86400000

/-- ECMA-262 `Day(t)`. -/
def dayOf (t : Int) : Int := t / msPerDay

/-- ECMA-262 `TimeWithinDay(t)`. -/
def timeWithinDay (t : Int) : Int := t % msPerDay

/-- ECMA-262 `HourFromTime(t)`. -/
def hourFromTime (t : Int) : Int := (t / msPerHour) % 24

/-- ECMA-262 `MinFromTime(t)`. -/
def minFromTime (t : Int) : Int := (t / msPerMinute) % 60

/-- ECMA-262 `SecFromTime(t)`. -/
def secFromTime (t : Int) : Int := (t / msPerSecond) % 60

/-- ECMA-262 `msFromTime(t)`. -/
def msFromTime (t : Int) : Int := t % msPerSecond

/-- ECMA-262 `MakeTime`. -/
def makeTime (h m s ms : Int) : Int := ((h * 60 + m) * 60 + s) * 1000 + ms

/-- ECMA-262 `MakeDate`. -/
def makeDate (day time : Int) : Int := day * msPerDay + time

/-- ECMA-262 `MakeDay` with a 1-based month; out-of-range months are
normalised into the year exactly as in ECMA-262 (`ym = y + floor(m0/12)`,
`mn = m0 mod 12` on the 0-based month `m0 = m - 1`), and the day is added
affinely to the first of the month. -/
def makeDay (y m d : Int) : Int :=
  daysFromCivil (y + (m - 1) / 12) ((m - 1) % 12 + 1) 1 + (d - 1)

/-- ECMA-262 `YearFromTime(t)` (UTC). -/
def yearFromTime (t : Int) : Int := (civilFromDays (dayOf t)).1

/-- The 1-based month of instant `t`; ECMA-262 `MonthFromTime(t)` is this
minus one. -/
def monthFromTime (t : Int) : Int := (civilFromDays (dayOf t)).2.1

/-- ECMA-262 `DateFromTime(t)` (the day of the month, 1-based). -/
def dateFromTime (t : Int) : Int := (civilFromDays (dayOf t)).2.2

/-- JavaScript `Date.prototype.getHours` (UTC model). -/
def jsGetHours (t : Int) : Int := hourFromTime t

/-- JavaScript `Date.prototype.setHours h` (UTC model): keep the day and the
sub-hour fields, replace the hour. -/
def jsSetHours (t h : Int) : Int :=
  makeDate (dayOf t) (makeTime h (minFromTime t) (secFromTime t) (msFromTime t))

/-- JavaScript `Date.prototype.getDate` (UTC model). -/
def jsGetDate (t : Int) : Int := dateFromTime t

/-- JavaScript `Date.prototype.setDate d` (UTC model): rebuild the day from
the current year and month with the new day-of-month. -/
def jsSetDate (t d : Int) : Int :=
  makeDate (makeDay (yearFromTime t) (monthFromTime t) d) (timeWithinDay t)

/-- JavaScript `Date.prototype.getMonth` (UTC model, 0-based as in JS). -/
def jsGetMonth (t : Int) : Int := monthFromTime t - 1

/-- JavaScript `Date.prototype.setMonth m0` (UTC model, `m0` 0-based as in
JS): rebuild the day from the current year and day-of-month with the new
month, normalising month overflow into the year. -/
def jsSetMonth (t m0 : Int) : Int :=
  makeDate (makeDay (yearFromTime t) (m0 + 1) (dateFromTime t)) (timeWithinDay t)

/-- ASCII lower-casing, the effect of JavaScript `String.prototype.toLowerCase`
on the ASCII frequency tokens used by the service. -/
def jsToLowerCase (s : String) : String := String.mk (s.data.map Char.toLower)

/-- Function `calculateNextExecutionDate` from `lib/recurringOrderService.ts`, with the
current instant made explicit (the source reads `new Date()`); the source
returns the instant serialised with `toISOString()`, modelled here as the
instant itself. -/
def calculateNextExecutionDate (frequency : String) (now : Int) : Int :=
  let f := jsToLowerCase frequency
  if f = "hourly" then jsSetHours now (jsGetHours now + 1)
  else if f = "daily" then jsSetDate now (jsGetDate now + 1)
  else if f = "weekly" then jsSetDate now (jsGetDate now + 7)
  else if f = "bi-weekly" then jsSetDate now (jsGetDate now + 14)
  else if f = "monthly" then jsSetMonth now (jsGetMonth now + 1)
  else jsSetDate now (jsGetDate now + 7)

/-- One calendar month after `t`, written from the specification's words
(schedule advancement, "monthly: +1 calendar month"): same day-of-month and
time of day, month advanced by one with December rolling into January of the
next year; an overflowing day-of-month spills into the following month
day-for-day. -/
def specAddCalendarMonth (t : Int) : Int :=
  let y := yearFromTime t
  let m := monthFromTime t
  let d := dateFromTime t
  if m = 12 then makeDate (daysFromCivil (y + 1) 1 d) (timeWithinDay t)
  else makeDate (daysFromCivil y (m + 1) d) (timeWithinDay t)

/-- The schedule-advancement mapping written from the specification's words:
`hourly: +1h; daily: +1 day; weekly: +7 days; bi-weekly: +14 days;
monthly: +1 calendar month; unrecognized: +7 days (fallback)`, applied to
the processing instant `t`. -/
def specFrequencyAdvance (frequency : String) (t : Int) : Int :=
  let f := jsToLowerCase frequency
  if f = "hourly" then t + msPerHour
  else if f = "daily" then t + msPerDay
  else if f = "weekly" then t + 7 * msPerDay
  else if f = "bi-weekly" then t + 14 * msPerDay
  else if f = "monthly" then specAddCalendarMonth t
  else t + 7 * msPerDay

theorem civil_roundtrip (z : Int) :
    daysFromCivil (civilFromDays z).1 (civilFromDays z).2.1 (civilFromDays z).2.2 = z := by
  unfold civilFromDays daysFromCivil
  simp only
  generalize hq1 : (z + 719468) / 146097 = era
  have h1 : 146097 * era ≤ z + 719468 ∧ z + 719468 < 146097 * era + 146097 := by omega
  clear hq1
  generalize hq2 : z + 719468 - era * 146097 = doe
  have h2 : 0 ≤ doe ∧ doe ≤ 146096 ∧ z = era * 146097 + doe - 719468 := by omega
  clear hq2
  generalize hq3 : doe / 146096 = t1
  have h3 : 146096 * t1 ≤ doe ∧ doe < 146096 * t1 + 146096 := by omega
  clear hq3
  generalize hq4 : (doe - t1) / 36524 = c
  have h4 : 0 ≤ c ∧ c ≤ 3 ∧ 0 ≤ doe - 36524 * c ∧ doe - 36524 * c ≤ 36524 := by omega
  clear hq4 h3 t1
  generalize hq5 : doe - 36524 * c = doc
  have h5 : 0 ≤ doc ∧ doc ≤ 36524 ∧ doe = 36524 * c + doc := by omega
  clear hq5
  generalize hq6 : doc / 1461 = j
  have h6 : 0 ≤ j ∧ j ≤ 24 ∧ 0 ≤ doc - 1461 * j ∧ doc - 1461 * j ≤ 1460 := by omega
  clear hq6
  generalize hq7 : doc - 1461 * j = dq
  have h7 : 0 ≤ dq ∧ dq ≤ 1460 ∧ doc = 1461 * j + dq := by omega
  clear hq7
  generalize hq8 : dq / 1460 = t2
  have h8 : 1460 * t2 ≤ dq ∧ dq < 1460 * t2 + 1460 := by omega
  clear hq8
  generalize hq9 : (dq - t2) / 365 = i
  have h9 : 0 ≤ i ∧ i ≤ 3 ∧ 0 ≤ dq - 365 * i ∧ dq - 365 * i ≤ 365 := by omega
  clear hq9 h8 t2
  generalize hq10 : dq - 365 * i = doy
  have h10 : 0 ≤ doy ∧ doy ≤ 365 ∧ dq = 365 * i + doy := by omega
  clear hq10
  generalize hq11 : (5 * doy + 2) / 153 = mp
  have h11 : 0 ≤ mp ∧ mp ≤ 11 ∧ (153 * mp + 2) / 5 ≤ doy ∧
      doy ≤ (153 * mp + 2) / 5 + 30 := by omega
  clear hq11
  by_cases hsmall : mp < 10
  · simp only [if_pos hsmall, if_neg (by omega : ¬ (mp + 3 ≤ 2)),
      if_pos (by omega : mp + 3 > 2)]
    have he1 : mp + 3 - 3 = mp := by omega
    rw [he1]
    have k1 : (100 * c + 4 * j + i + era * 400) / 400 = era := by omega
    rw [k1]
    have k2 : 100 * c + 4 * j + i + era * 400 - era * 400 = 100 * c + 4 * j + i := by
      omega
    rw [k2]
    have k3 : (100 * c + 4 * j + i) / 4 = 25 * c + j := by omega
    have k4 : (100 * c + 4 * j + i) / 100 = c := by omega
    rw [k3, k4]
    omega
  · simp only [if_neg hsmall, if_pos (by omega : mp + -9 ≤ 2),
      if_neg (by omega : ¬ (mp + -9 > 2))]
    have he1 : mp + -9 + 9 = mp := by omega
    rw [he1]
    have k1 : (100 * c + 4 * j + i + era * 400 + 1 - 1) / 400 = era := by omega
    rw [k1]
    have k2 : 100 * c + 4 * j + i + era * 400 + 1 - 1 - era * 400 =
        100 * c + 4 * j + i := by omega
    rw [k2]
    have k3 : (100 * c + 4 * j + i) / 4 = 25 * c + j := by omega
    have k4 : (100 * c + 4 * j + i) / 100 = c := by omega
    rw [k3, k4]
    omega

theorem civilFromDays_month_day_range (z : Int) :
    1 ≤ (civilFromDays z).2.1 ∧ (civilFromDays z).2.1 ≤ 12 ∧
    1 ≤ (civilFromDays z).2.2 ∧ (civilFromDays z).2.2 ≤ 31 := by
  unfold civilFromDays
  simp only
  generalize hq1 : (z + 719468) / 146097 = era
  have h1 : 146097 * era ≤ z + 719468 ∧ z + 719468 < 146097 * era + 146097 := by omega
  clear hq1
  generalize hq2 : z + 719468 - era * 146097 = doe
  have h2 : 0 ≤ doe ∧ doe ≤ 146096 := by omega
  clear hq2 h1
  generalize hq3 : doe / 146096 = t1
  have h3 : 146096 * t1 ≤ doe ∧ doe < 146096 * t1 + 146096 := by omega
  clear hq3
  generalize hq4 : (doe - t1) / 36524 = c
  have h4 : 0 ≤ doe - 36524 * c ∧ doe - 36524 * c ≤ 36524 := by omega
  clear hq4 h3 t1
  generalize hq5 : doe - 36524 * c = doc
  have h5 : 0 ≤ doc ∧ doc ≤ 36524 := by omega
  clear hq5 h4
  generalize hq6 : doc / 1461 = j
  have h6 : 0 ≤ doc - 1461 * j ∧ doc - 1461 * j ≤ 1460 := by omega
  clear hq6
  generalize hq7 : doc - 1461 * j = dq
  have h7 : 0 ≤ dq ∧ dq ≤ 1460 := by omega
  clear hq7 h6
  generalize hq8 : dq / 1460 = t2
  have h8 : 1460 * t2 ≤ dq ∧ dq < 1460 * t2 + 1460 := by omega
  clear hq8
  generalize hq9 : (dq - t2) / 365 = i
  have h9 : 0 ≤ dq - 365 * i ∧ dq - 365 * i ≤ 365 := by omega
  clear hq9 h8 t2
  generalize hq10 : dq - 365 * i = doy
  have h10 : 0 ≤ doy ∧ doy ≤ 365 := by omega
  clear hq10 h9
  generalize hq11 : (5 * doy + 2) / 153 = mp
  have h11 : 0 ≤ mp ∧ mp ≤ 11 ∧ (153 * mp + 2) / 5 ≤ doy ∧
      doy ≤ (153 * mp + 2) / 5 + 30 := by omega
  clear hq11
  by_cases hsmall : mp < 10
  · simp only [if_pos hsmall]
    omega
  · simp only [if_neg hsmall]
    omega

/-- The map `daysFromCivil` is affine in the day argument. -/
theorem daysFromCivil_day_affine (y m d : Int) :
    daysFromCivil y m d = daysFromCivil y m 1 + (d - 1) := by
  unfold daysFromCivil
  simp only
  by_cases h : m ≤ 2
  · simp only [if_pos h, if_neg (by omega : ¬ m > 2)]
    omega
  · simp only [if_neg h, if_pos (by omega : m > 2)]
    omega

/-- For an in-range month, `makeDay` is `daysFromCivil`. -/
theorem makeDay_eq_daysFromCivil (y m d : Int) (h1 : 1 ≤ m) (h2 : m ≤ 12) :
    makeDay y m d = daysFromCivil y m d := by
  unfold makeDay
  have e1 : (m - 1) / 12 = 0 := by omega
  have e2 : (m - 1) % 12 + 1 = m := by omega
  rw [e1, e2, daysFromCivil_day_affine y m d]
  simp only [add_zero]

theorem makeDay_eq_daysFromCivil_witness :
    makeDay 2024 2 30 = daysFromCivil 2024 2 30 :=
  makeDay_eq_daysFromCivil 2024 2 30 (by decide) (by decide)

/-- JS `setHours(getHours() + 1)` adds exactly one hour (UTC model). -/
theorem jsSetHours_succ (t : Int) : jsSetHours t (jsGetHours t + 1) = t + msPerHour := by
  unfold jsSetHours jsGetHours makeDate makeTime dayOf hourFromTime minFromTime secFromTime
    msFromTime msPerDay msPerHour msPerMinute msPerSecond
  omega

/-- JS `setDate(getDate() + n)` adds exactly `n` days (UTC model). -/
theorem jsSetDate_add (t n : Int) : jsSetDate t (jsGetDate t + n) = t + n * msPerDay := by
  have hm := civilFromDays_month_day_range (dayOf t)
  have hrt := civil_roundtrip (dayOf t)
  rw [daysFromCivil_day_affine] at hrt
  unfold jsSetDate jsGetDate makeDate yearFromTime monthFromTime dateFromTime
  rw [makeDay_eq_daysFromCivil _ _ _ hm.1 hm.2.1, daysFromCivil_day_affine]
  simp only [dayOf, timeWithinDay, msPerDay] at *
  omega

/-- Moving to the next month within a year strictly increases the day number,
for any day-of-month value (including overflowing ones). -/
theorem daysFromCivil_next_month_gt (y m d : Int) (h1 : 1 ≤ m) (h2 : m ≤ 11) :
    daysFromCivil y m d < daysFromCivil y (m + 1) d := by
  unfold daysFromCivil
  simp only
  by_cases hA : m ≤ 2
  · by_cases hB : m + 1 ≤ 2
    · simp only [if_pos hA, if_pos hB, if_neg (by omega : ¬ m > 2),
        if_neg (by omega : ¬ m + 1 > 2)]
      omega
    · simp only [if_pos hA, if_neg hB, if_neg (by omega : ¬ m > 2),
        if_pos (by omega : m + 1 > 2)]
      omega
  · simp only [if_neg hA, if_neg (by omega : ¬ m + 1 ≤ 2),
      if_pos (by omega : m > 2), if_pos (by omega : m + 1 > 2)]
    omega

theorem daysFromCivil_next_month_gt_witness :
    daysFromCivil 2024 1 31 < daysFromCivil 2024 2 31 :=
  daysFromCivil_next_month_gt 2024 1 31 (by decide) (by decide)

/-- December to January of the next year strictly increases the day number,
for any day-of-month value. -/
theorem daysFromCivil_december_gt (y d : Int) :
    daysFromCivil y 12 d < daysFromCivil (y + 1) 1 d := by
  unfold daysFromCivil
  simp only
  simp only [if_neg (by omega : ¬ (12 : Int) ≤ 2), if_pos (by omega : (12 : Int) > 2),
    if_pos (by omega : (1 : Int) ≤ 2), if_neg (by omega : ¬ (1 : Int) > 2)]
  have he : y + 1 - 1 = y := by omega
  rw [he]
  omega

/-- Month 13 is normalised by `makeDay` to January of the next year. -/
theorem makeDay_thirteen (y d : Int) : makeDay y 13 d = daysFromCivil (y + 1) 1 d := by
  unfold makeDay
  have e1 : ((13 : Int) - 1) / 12 = 1 := by norm_num
  have e2 : ((13 : Int) - 1) % 12 + 1 = 1 := by norm_num
  rw [e1, e2, daysFromCivil_day_affine (y + 1) 1 d]

/-- JS `setMonth(getMonth() + 1)` is exactly the specification's
"+1 calendar month". -/
theorem jsSetMonth_plus1_eq_specAddCalendarMonth (t : Int) :
    jsSetMonth t (jsGetMonth t + 1) = specAddCalendarMonth t := by
  have hm := civilFromDays_month_day_range (dayOf t)
  unfold jsSetMonth jsGetMonth specAddCalendarMonth yearFromTime monthFromTime dateFromTime
  simp only
  by_cases h12 : (civilFromDays (dayOf t)).2.1 = 12
  · rw [if_pos h12, h12]
    have he : (12 : Int) - 1 + 1 + 1 = 13 := by norm_num
    rw [he, makeDay_thirteen]
  · rw [if_neg h12]
    have he : (civilFromDays (dayOf t)).2.1 - 1 + 1 + 1 = (civilFromDays (dayOf t)).2.1 + 1 := by
      omega
    rw [he, makeDay_eq_daysFromCivil _ _ _ (by omega) (by omega)]

/-- The spec's "+1 calendar month" strictly advances the instant. -/
theorem specAddCalendarMonth_gt (t : Int) : t < specAddCalendarMonth t := by
  have hm := civilFromDays_month_day_range (dayOf t)
  have hrt := civil_roundtrip (dayOf t)
  have ht : dayOf t * msPerDay + timeWithinDay t = t ∧ 0 ≤ timeWithinDay t := by
    unfold dayOf timeWithinDay msPerDay
    omega
  unfold specAddCalendarMonth makeDate yearFromTime monthFromTime dateFromTime
  simp only
  by_cases h12 : (civilFromDays (dayOf t)).2.1 = 12
  · rw [if_pos h12]
    rw [h12] at hrt
    have hlt := daysFromCivil_december_gt (civilFromDays (dayOf t)).1
      (civilFromDays (dayOf t)).2.2
    unfold msPerDay at *
    omega
  · rw [if_neg h12]
    have hlt := daysFromCivil_next_month_gt (civilFromDays (dayOf t)).1
      (civilFromDays (dayOf t)).2.1 (civilFromDays (dayOf t)).2.2 hm.1 (by omega)
    unfold msPerDay at *
    omega

/-- The spec's advancement mapping strictly advances the instant, for every
frequency string. -/
theorem specFrequencyAdvance_gt (frequency : String) (t : Int) :
    t < specFrequencyAdvance frequency t := by
  unfold specFrequencyAdvance
  simp only
  by_cases h1 : jsToLowerCase frequency = "hourly"
  · simp only [if_pos h1]; unfold msPerHour; omega
  simp only [if_neg h1]
  by_cases h2 : jsToLowerCase frequency = "daily"
  · simp only [if_pos h2]; unfold msPerDay; omega
  simp only [if_neg h2]
  by_cases h3 : jsToLowerCase frequency = "weekly"
  · simp only [if_pos h3]; unfold msPerDay; omega
  simp only [if_neg h3]
  by_cases h4 : jsToLowerCase frequency = "bi-weekly"
  · simp only [if_pos h4]; unfold msPerDay; omega
  simp only [if_neg h4]
  by_cases h5 : jsToLowerCase frequency = "monthly"
  · simp only [if_pos h5]; exact specAddCalendarMonth_gt t
  simp only [if_neg h5]
  unfold msPerDay; omega

/-- Function `calculateNextExecutionDate` computes exactly the specification's
advancement mapping on every frequency string. -/
theorem calculateNextExecutionDate_eq_spec (frequency : String) (now : Int) :
    calculateNextExecutionDate frequency now = specFrequencyAdvance frequency now := by
  unfold calculateNextExecutionDate specFrequencyAdvance
  simp only
  by_cases h1 : jsToLowerCase frequency = "hourly"
  · simp only [if_pos h1]; exact jsSetHours_succ now
  simp only [if_neg h1]
  by_cases h2 : jsToLowerCase frequency = "daily"
  · simp only [if_pos h2]
    have h := jsSetDate_add now 1
    rw [h]; omega
  simp only [if_neg h2]
  by_cases h3 : jsToLowerCase frequency = "weekly"
  · simp only [if_pos h3]; exact jsSetDate_add now 7
  simp only [if_neg h3]
  by_cases h4 : jsToLowerCase frequency = "bi-weekly"
  · simp only [if_pos h4]; exact jsSetDate_add now 14
  simp only [if_neg h4]
  by_cases h5 : jsToLowerCase frequency = "monthly"
  · simp only [if_pos h5]; exact jsSetMonth_plus1_eq_specAddCalendarMonth now
  simp only [if_neg h5]
  exact jsSetDate_add now 7

inductive OrderType where
  | buy
  | sell
deriving DecidableEq, Repr

/-- Expression `orderType.charAt(0).toUpperCase() + orderType.slice(1)` applied to the
two order-type literals. -/
def orderTypeLabel : OrderType → String
  | OrderType.buy => "Buy"
  | OrderType.sell => "Sell"

inductive ExecutionStatus where
  | Pending
  | Successful
  | Failed
deriving DecidableEq, Repr

/-- The `RecurringOrder` row interface of `lib/recurringOrderService.ts`.
Timestamps are epoch-millisecond instants; `amount` is the parsed decimal. -/
structure RecurringOrder where
  id : String
  wallet_address : String
  order_type : OrderType
  source_token : String
  target_token : String
  amount : ℚ
  frequency : String
  start_date : Int
  end_date : Option Int
  next_execution_date : Option Int
  is_active : Bool
  execution_count : Nat
  signature : Option String
deriving DecidableEq, Repr

/-- The `RecurringOrderExecution` row interface of
`lib/recurringOrderService.ts`. -/
structure RecurringOrderExecution where
  recurring_order_id : String
  wallet_address : String
  execution_date : Int
  amount : ℚ
  source_token : String
  target_token : String
  transaction_hash : Option String
  status : ExecutionStatus
  error_message : Option String
deriving DecidableEq, Repr

/-- A row of the `activities` table (`supabase/schema.sql`), restricted to
the columns the recurring-order service writes. -/
structure Activity where
  wallet_address : String
  type : String
  source_currency_ticker : String
  destination_currency_ticker : String
  source_network_name : String
  destination_network_name : String
  status : String
  amount : ℚ
deriving DecidableEq, Repr

/-- The durable state the service operates on: the `recurring_orders`,
`activities` and `recurring_order_executions` tables. -/
structure Store where
  recurring_orders : List RecurringOrder
  activities : List Activity
  executions : List RecurringOrderExecution
deriving DecidableEq, Repr

/-- Function `getRecurringOrder` from `lib/recurringOrderService.ts`: `.single()` on
the rows with the given id; on any error — including "no rows" and a failed
read, injected here as `readFails` — the function logs and returns `null`.
-/
def getRecurringOrder (readFails : Bool) (st : Store) (orderId : String) :
    Option RecurringOrder :=
  if readFails then none
  else st.recurring_orders.find? (fun o => o.id = orderId)

/-- The activity row inserted by `logOrderCancellation`. -/
def cancellationActivity (walletAddress : String) (orderType : OrderType)
    (sourceToken targetToken : String) : Activity :=
  { wallet_address := jsToLowerCase walletAddress
  , type := "Recurring " ++ orderTypeLabel orderType ++ " Cancelled"
  , source_currency_ticker := sourceToken
  , destination_currency_ticker := targetToken
  , source_network_name := "Arc"
  , destination_network_name := "Arc"
  , status := "Successful"
  , amount := 0 }

/-- Function `logOrderCancellation` from `lib/recurringOrderService.ts`: insert one
cancellation activity row; a failed insert (injected as `logFails`) raises.
-/
def logOrderCancellation (logFails : Bool) (st : Store) (walletAddress : String)
    (sourceToken targetToken : String) (orderType : OrderType) :
    Except String Store :=
  if logFails then Except.error "Failed to log order cancellation"
  else Except.ok { st with activities :=
    st.activities ++ [cancellationActivity walletAddress orderType sourceToken targetToken] }

/-- The row-wise effect of `update({ is_active: false }).eq("id", orderId)`. -/
def deactivateIfId (orderId : String) (o : RecurringOrder) : RecurringOrder :=
  if o.id = orderId then { o with is_active := false } else o

/-- Function `cancelRecurringOrder` from `lib/recurringOrderService.ts`: look the
order up (via `getRecurringOrder`), throw "Order not found" when that yields
`null`, set `is_active := false` on the matching rows, then best-effort log
the cancellation — a logging failure is caught and not re-thrown (the source
also passes the order id to the logger, which does not store it).  The
returned pair is the thrown-or-returned outcome together with the store
state after the call. -/
def cancelRecurringOrder (readFails updateFails logFails : Bool) (st : Store)
    (orderId walletAddress : String) : Except String Unit × Store :=
  match getRecurringOrder readFails st orderId with
  | none => (Except.error "Order not found", st)
  | some order =>
    if updateFails then (Except.error "Failed to cancel recurring order", st)
    else
      let st' := { st with recurring_orders :=
        st.recurring_orders.map (deactivateIfId orderId) }
      match logOrderCancellation logFails st' walletAddress
          order.source_token order.target_token order.order_type with
      | Except.ok st'' => (Except.ok (), st'')
      | Except.error _ => (Except.ok (), st')

/-- Function `createRecurringOrder` from `lib/recurringOrderService.ts`: insert a row
with `start_date := now`, `next_execution_date := calculateNextExecutionDate
frequency` (evaluated at `now`) and `is_active := true`; a failed insert
(injected as `insertFails`) raises.  `newId` stands for the id the database
generates. -/
def createRecurringOrder (insertFails : Bool) (now : Int) (newId : String)
    (st : Store) (walletAddress : String) (orderType : OrderType)
    (sourceToken targetToken : String) (amount : ℚ) (frequency : String)
    (endDate : Option Int) (signature : Option String) :
    Except String (RecurringOrder × Store) :=
  if insertFails then Except.error "Failed to create recurring order"
  else
    let order : RecurringOrder :=
      { id := newId
      , wallet_address := walletAddress
      , order_type := orderType
      , source_token := sourceToken
      , target_token := targetToken
      , amount := amount
      , frequency := frequency
      , start_date := now
      , end_date := endDate
      , next_execution_date := some (calculateNextExecutionDate frequency now)
      , is_active := true
      , execution_count := 0
      , signature := signature }
    Except.ok (order, { st with recurring_orders := st.recurring_orders ++ [order] })

/-- Function `logOrderExecution` from `lib/recurringOrderService.ts`: insert one
execution row carrying exactly the given status, transaction hash and error
message (the source's default status is `"Pending"`); a failed insert
(injected as `insertFails`) raises. -/
def logOrderExecution (insertFails : Bool) (now : Int) (st : Store)
    (recurringOrderId walletAddress : String) (amount : ℚ)
    (sourceToken targetToken : String)
    (status : ExecutionStatus := ExecutionStatus.Pending)
    (transactionHash : Option String := none)
    (errorMessage : Option String := none) :
    Except String (RecurringOrderExecution × Store) :=
  if insertFails then Except.error "Failed to log order execution"
  else
    let ex : RecurringOrderExecution :=
      { recurring_order_id := recurringOrderId
      , wallet_address := walletAddress
      , execution_date := now
      , amount := amount
      , source_token := sourceToken
      , target_token := targetToken
      , transaction_hash := transactionHash
      , status := status
      , error_message := errorMessage }
    Except.ok (ex, { st with executions := st.executions ++ [ex] })

/-- A sample active order used to instantiate the contracts on concrete
inputs. -/
def sampleOrder : RecurringOrder :=
  { id := "order-1"
  , wallet_address := "0xAbC"
  , order_type := OrderType.buy
  , source_token := "USDC"
  , target_token := "ETH"
  , amount := 10
  , frequency := "Weekly"
  , start_date := 0
  , end_date := none
  , next_execution_date := some 5
  , is_active := true
  , execution_count := 0
  , signature := none }

/-- A store holding only `sampleOrder`. -/
def sampleStore : Store :=
  { recurring_orders := [sampleOrder], activities := [], executions := [] }

/-- C1: `calculateNextExecutionDate` advances the processing instant by
exactly the interval the spec maps the frequency to (hourly +1h, daily
+1 day, weekly +7 days, bi-weekly +14 days, monthly +1 calendar month,
anything unrecognized +7 days), computed from the instant of the call; in
particular frequency "Weekly" processed at `t` yields `t + 7` days. -/
theorem C1_frequency_interval_mapping :
    (∀ frequency now,
      calculateNextExecutionDate frequency now = specFrequencyAdvance frequency now) ∧
    (∀ t, calculateNextExecutionDate "Weekly" t = t + 7 * msPerDay) := by
  refine ⟨calculateNextExecutionDate_eq_spec, fun t => ?_⟩
  rw [calculateNextExecutionDate_eq_spec]
  unfold specFrequencyAdvance
  simp only
  have h : jsToLowerCase "Weekly" = "weekly" := by decide
  rw [h]
  rw [if_neg (by decide : ¬ ("weekly" : String) = "hourly"),
    if_neg (by decide : ¬ ("weekly" : String) = "daily"),
    if_pos (rfl : ("weekly" : String) = "weekly")]

/-- C2: schedule advancement strictly advances: for every frequency string
and instant, `calculateNextExecutionDate` exceeds the processing instant;
hence a processed due order's `next_due_time` strictly exceeds its value
before the run. -/
theorem C2_schedule_strictly_advances :
    (∀ frequency now, now < calculateNextExecutionDate frequency now) ∧
    (∀ (now : Int) (o : RecurringOrder) (tOld : Int),
      o.next_execution_date = some tOld → tOld ≤ now →
      tOld < calculateNextExecutionDate o.frequency now) := by
  have base : ∀ frequency now, now < calculateNextExecutionDate frequency now := by
    intro f now
    rw [calculateNextExecutionDate_eq_spec]
    exact specFrequencyAdvance_gt f now
  exact ⟨base, fun now o tOld _ hle => lt_of_le_of_lt hle (base o.frequency now)⟩

theorem C2_witness :
    sampleOrder.next_execution_date = some 5 ∧ (5 : Int) ≤ 1000 ∧
    (5 : Int) < calculateNextExecutionDate sampleOrder.frequency 1000 :=
  ⟨by decide, by decide,
    C2_schedule_strictly_advances.2 1000 sampleOrder 5 (by decide) (by decide)⟩

/-- C3: cancelling a non-existent order raises "Order not found" and leaves
the store unchanged; cancelling an existing order deactivates it even when
activity logging fails — the logging failure is caught, the call returns
normally, and the deactivation (row-wise `deactivateIfId`) stays in effect.
-/
theorem C3_cancel_error_handling :
    (∀ readFails updateFails logFails st orderId wallet,
      getRecurringOrder readFails st orderId = none →
      cancelRecurringOrder readFails updateFails logFails st orderId wallet =
        (Except.error "Order not found", st)) ∧
    (∀ st orderId wallet order,
      getRecurringOrder false st orderId = some order →
      cancelRecurringOrder false false true st orderId wallet =
        (Except.ok (), { st with recurring_orders :=
          st.recurring_orders.map (deactivateIfId orderId) })) ∧
    (∀ orderId o, (deactivateIfId orderId o).id = o.id ∧
      (o.id = orderId → (deactivateIfId orderId o).is_active = false)) := by
  refine ⟨?_, ?_, ?_⟩
  · intro readFails updateFails logFails st orderId wallet h
    unfold cancelRecurringOrder
    rw [h]
  · intro st orderId wallet order h
    unfold cancelRecurringOrder
    rw [h]
    rfl
  · intro orderId o
    by_cases h : o.id = orderId <;> simp [deactivateIfId, h]

theorem C3_witness :
    cancelRecurringOrder true false false sampleStore "order-1" "0xAbC" =
      (Except.error "Order not found", sampleStore) ∧
    cancelRecurringOrder false false true sampleStore "order-1" "0xAbC" =
      (Except.ok (), { sampleStore with recurring_orders :=
        sampleStore.recurring_orders.map (deactivateIfId "order-1") }) :=
  ⟨C3_cancel_error_handling.1 true false false sampleStore "order-1" "0xAbC" (by decide),
   C3_cancel_error_handling.2.1 sampleStore "order-1" "0xAbC" sampleOrder (by decide)⟩

/-- An already-cancelled order: `sampleOrder` with its active flag cleared.
-/
def inactiveOrder : RecurringOrder := { sampleOrder with is_active := false }

/-- A store in which `inactiveOrder` was already cancelled once: the order
is inactive and its cancellation activity is already on record. -/
def cancelledOnceStore : Store :=
  { recurring_orders := [inactiveOrder]
  , activities := [cancellationActivity "0xAbC" OrderType.buy "USDC" "ETH"]
  , executions := [] }

/-- C4 counterexample: cancelling the already-inactive `inactiveOrder` again
surfaces no error, but appends a second cancellation activity record
identical to the one already on file — cancellation is not idempotent on
the activity log, contrary to the claim. -/
theorem C4_counterexample :
    (cancelRecurringOrder false false false cancelledOnceStore "order-1" "0xAbC").1 =
      Except.ok () ∧
    (cancelRecurringOrder false false false cancelledOnceStore "order-1" "0xAbC").2.activities =
      cancelledOnceStore.activities ++
        [cancellationActivity "0xAbC" OrderType.buy "USDC" "ETH"] ∧
    cancellationActivity "0xAbC" OrderType.buy "USDC" "ETH" ∈
      cancelledOnceStore.activities := by
  refine ⟨rfl, by decide, by decide⟩

/-- C4 (amended): cancelling an existing order deactivates its rows and
appends exactly one cancellation activity record per call, independently of
the order's prior active state: a repeated cancellation surfaces no error
and leaves the order inactive, but appends a further (duplicate) activity
record, because the function never checks whether the order is already
inactive. -/
theorem C4_cancel_appends_one_activity (st : Store) (orderId wallet : String)
    (order : RecurringOrder)
    (h : getRecurringOrder false st orderId = some order) :
    cancelRecurringOrder false false false st orderId wallet =
      (Except.ok (), { st with
        recurring_orders := st.recurring_orders.map (deactivateIfId orderId)
        activities := st.activities ++
          [cancellationActivity wallet order.order_type
            order.source_token order.target_token] }) := by
  unfold cancelRecurringOrder logOrderCancellation
  rw [h]
  rfl

theorem C4_witness :
    cancelRecurringOrder false false false sampleStore "order-1" "0xAbC" =
      (Except.ok (), { sampleStore with
        recurring_orders := sampleStore.recurring_orders.map (deactivateIfId "order-1")
        activities := sampleStore.activities ++
          [cancellationActivity "0xAbC" OrderType.buy "USDC" "ETH"] }) := by
  have h := C4_cancel_appends_one_activity sampleStore "order-1" "0xAbC" sampleOrder
    (by decide)
  exact h

/-- C10: `getRecurringOrder` answers `none` both when the store read fails
and when no row has the requested id, so `cancelRecurringOrder` raises the
same "Order not found" error in both situations, performing no write at
all: the returned store is the input store. -/
theorem C10_read_failure_equals_not_found :
    (∀ st orderId, getRecurringOrder true st orderId = none) ∧
    (∀ st orderId, (∀ o ∈ st.recurring_orders, o.id ≠ orderId) →
      getRecurringOrder false st orderId = none) ∧
    (∀ readFails updateFails logFails st orderId wallet,
      getRecurringOrder readFails st orderId = none →
      cancelRecurringOrder readFails updateFails logFails st orderId wallet =
        (Except.error "Order not found", st)) := by
  refine ⟨fun st orderId => rfl, ?_, ?_⟩
  · intro st orderId h
    show List.find? (fun o => o.id = orderId) st.recurring_orders = none
    rw [List.find?_eq_none]
    intro o ho
    simpa using h o ho
  · intro readFails updateFails logFails st orderId wallet h
    unfold cancelRecurringOrder
    rw [h]

theorem C10_witness :
    getRecurringOrder true sampleStore "order-1" = none ∧
    getRecurringOrder false sampleStore "order-9" = none ∧
    cancelRecurringOrder true false false sampleStore "order-1" "0xAbC" =
      (Except.error "Order not found", sampleStore) :=
  ⟨C10_read_failure_equals_not_found.1 sampleStore "order-1",
   C10_read_failure_equals_not_found.2.1 sampleStore "order-9" (by decide),
   C10_read_failure_equals_not_found.2.2 true false false sampleStore "order-1" "0xAbC"
     (by decide)⟩

/-- A token as used by the creation forms (only the symbol matters to order
creation). -/
structure Token where
  symbol : String
deriving DecidableEq, Repr

/-- Component `RecurringBuys`: the buy list offered to the user excludes the currently
selected pay token (`tokens.filter(t => t.symbol !== selectedPayToken.symbol)`).
The sell form computes its list the same way against the convert token. -/
def availableTokensForBuy (tokens : List Token) (selectedPayToken : Token) :
    List Token :=
  tokens.filter (fun tok => tok.symbol ≠ selectedPayToken.symbol)

/-- Handler `RecurringBuys.handleContinue`: reject a missing wallet, a missing buy
token and a missing or non-positive amount, then create the order.  `amount`
is the `parseFloat`-parsed value of the amount field (`none` for the empty
string; non-numeric strings parse to NaN, a floating-point concern outside
this model).  Signature collection is best-effort in the source (a signing
failure is caught and the order is created without a signature), modelled by
the `signature` argument. -/
def handleContinueBuy (now : Int) (newId : String) (st : Store)
    (walletAddress : Option String) (selectedPayToken : Token)
    (selectedBuyToken : Option Token) (amount : Option ℚ) (frequency : String)
    (endDate : Option Int) (signature : Option String) (insertFails : Bool) :
    Except String (RecurringOrder × Store) :=
  match walletAddress with
  | none => Except.error "Please connect your wallet"
  | some wa =>
    match selectedBuyToken with
    | none => Except.error "Please select a token to buy"
    | some buyTok =>
      match amount with
      | none => Except.error "Please enter a valid amount"
      | some a =>
        if a ≤ 0 then Except.error "Please enter a valid amount"
        else
          createRecurringOrder insertFails now newId st wa OrderType.buy
            selectedPayToken.symbol buyTok.symbol a frequency endDate signature

/-- Handler `RecurringSell.handleContinue`: same checks as the buy flow, creating a
sell order from the sell token into the convert token. -/
def handleContinueSell (now : Int) (newId : String) (st : Store)
    (walletAddress : Option String) (selectedConvertToken : Token)
    (selectedSellToken : Option Token) (amount : Option ℚ) (frequency : String)
    (endDate : Option Int) (signature : Option String) (insertFails : Bool) :
    Except String (RecurringOrder × Store) :=
  match walletAddress with
  | none => Except.error "Please connect your wallet"
  | some wa =>
    match selectedSellToken with
    | none => Except.error "Please select a token to sell"
    | some sellTok =>
      match amount with
      | none => Except.error "Please enter a valid amount"
      | some a =>
        if a ≤ 0 then Except.error "Please enter a valid amount"
        else
          createRecurringOrder insertFails now newId st wa OrderType.sell
            sellTok.symbol selectedConvertToken.symbol a frequency endDate signature

def ethToken : Token := { symbol := "ETH" }

def usdcToken : Token := { symbol := "USDC" }

/-- The order the buy flow stores when both the pay and the buy token are
ETH: `next_execution_date` is `calculateNextExecutionDate "Weekly"` at
instant 0, which is `7` days. -/
def duplicateTokenOrder : RecurringOrder :=
  { id := "order-9"
  , wallet_address := "0xAbC"
  , order_type := OrderType.buy
  , source_token := "ETH"
  , target_token := "ETH"
  , amount := 10
  , frequency := "Weekly"
  , start_date := 0
  , end_date := none
  , next_execution_date := some 604800000
  , is_active := true
  , execution_count := 0
  , signature := none }

/-- C5 counterexample: with the pay token changed to ETH after ETH was
picked as the buy token, `handleContinue` accepts the request — it checks
the amount but never compares the two token symbols — and stores an order
with `source_token = target_token`, violating the claimed invariant. -/
theorem C5_counterexample :
    handleContinueBuy 0 "order-9" sampleStore (some "0xAbC") ethToken
        (some ethToken) (some 10) "Weekly" none none false =
      Except.ok (duplicateTokenOrder,
        { sampleStore with recurring_orders :=
            sampleStore.recurring_orders ++ [duplicateTokenOrder] }) ∧
    duplicateTokenOrder.source_token = duplicateTokenOrder.target_token := by
  exact ⟨rfl, rfl⟩

/-- C5 (amended): every order either creation flow accepts and stores has a
strictly positive amount (non-positive and missing amounts are rejected
before any insert), and the token dropdown excludes the pay/convert token
from the offered list at selection time; but no check compares the two
symbols at submission, so distinctness of `source_token` and `target_token`
is not an enforced invariant (see the counterexample). -/
theorem C5_amount_positive_token_filter :
    (∀ now newId st wa payTok buyTokOpt amtOpt freq endD sig order st',
      handleContinueBuy now newId st wa payTok buyTokOpt amtOpt freq endD sig false =
        Except.ok (order, st') → 0 < order.amount) ∧
    (∀ now newId st wa convTok sellTokOpt amtOpt freq endD sig order st',
      handleContinueSell now newId st wa convTok sellTokOpt amtOpt freq endD sig false =
        Except.ok (order, st') → 0 < order.amount) ∧
    (∀ tokens payTok tok, tok ∈ availableTokensForBuy tokens payTok →
      tok.symbol ≠ payTok.symbol) := by
  refine ⟨?_, ?_, ?_⟩
  · intro now newId st wa payTok buyTokOpt amtOpt freq endD sig order st' h
    cases wa with
    | none => simp [handleContinueBuy] at h
    | some wa =>
      cases buyTokOpt with
      | none => simp [handleContinueBuy] at h
      | some buyTok =>
        cases amtOpt with
        | none => simp [handleContinueBuy] at h
        | some a =>
          by_cases hle : a ≤ 0
          · simp [handleContinueBuy, hle] at h
          · unfold handleContinueBuy createRecurringOrder at h
            simp only [if_neg hle] at h
            simp only [if_neg (by decide : ¬ false = true)] at h
            rw [Except.ok.injEq, Prod.mk.injEq] at h
            have := h.1
            subst this
            simpa using lt_of_not_le hle
  · intro now newId st wa convTok sellTokOpt amtOpt freq endD sig order st' h
    cases wa with
    | none => simp [handleContinueSell] at h
    | some wa =>
      cases sellTokOpt with
      | none => simp [handleContinueSell] at h
      | some sellTok =>
        cases amtOpt with
        | none => simp [handleContinueSell] at h
        | some a =>
          by_cases hle : a ≤ 0
          · simp [handleContinueSell, hle] at h
          · unfold handleContinueSell createRecurringOrder at h
            simp only [if_neg hle] at h
            simp only [if_neg (by decide : ¬ false = true)] at h
            rw [Except.ok.injEq, Prod.mk.injEq] at h
            have := h.1
            subst this
            simpa using lt_of_not_le hle
  · intro tokens payTok tok h
    have := List.of_mem_filter h
    simpa using this

theorem C5_witness :
    (0 : ℚ) < duplicateTokenOrder.amount ∧ usdcToken.symbol ≠ ethToken.symbol :=
  ⟨C5_amount_positive_token_filter.1 0 "order-9" sampleStore (some "0xAbC") ethToken
      (some ethToken) (some 10) "Weekly" none none duplicateTokenOrder
      { sampleStore with recurring_orders :=
          sampleStore.recurring_orders ++ [duplicateTokenOrder] }
      rfl,
   C5_amount_positive_token_filter.2.2 [usdcToken, ethToken] ethToken usdcToken
      (by decide)⟩

/-- A `Failed` execution row carrying no error message, as
`logOrderExecution` writes it when the caller passes none. -/
def failedNoMessageExecution : RecurringOrderExecution :=
  { recurring_order_id := "order-1"
  , wallet_address := "0xAbC"
  , execution_date := 0
  , amount := 10
  , source_token := "USDC"
  , target_token := "ETH"
  , transaction_hash := none
  , status := ExecutionStatus.Failed
  , error_message := none }

/-- C6 counterexample: `logOrderExecution` happily writes a `Failed`
execution record with no error message (and, symmetrically, would write a
`Successful` one with no transaction hash): it never checks the optional
fields against the status. -/
theorem C6_counterexample :
    logOrderExecution false 0 sampleStore "order-1" "0xAbC" 10 "USDC" "ETH"
        ExecutionStatus.Failed none none =
      Except.ok (failedNoMessageExecution,
        { sampleStore with executions :=
            sampleStore.executions ++ [failedNoMessageExecution] }) ∧
    failedNoMessageExecution.status = ExecutionStatus.Failed ∧
    failedNoMessageExecution.error_message = none := by
  exact ⟨rfl, rfl, rfl⟩

/-- C6 (amended): `logOrderExecution` is a pass-through — the stored record
carries exactly the status, transaction hash and error message the caller
supplies.  The spec's invariant (Failed implies an error message, Successful
implies a transaction reference) holds only if every caller supplies the
matching field; the function itself does not enforce it. -/
theorem C6_execution_record_passthrough (now : Int) (st : Store)
    (oid w : String) (amt : ℚ) (srcT tgtT : String) (status : ExecutionStatus)
    (txh errMsg : Option String) :
    logOrderExecution false now st oid w amt srcT tgtT status txh errMsg =
      Except.ok
        ({ recurring_order_id := oid
         , wallet_address := w
         , execution_date := now
         , amount := amt
         , source_token := srcT
         , target_token := tgtT
         , transaction_hash := txh
         , status := status
         , error_message := errMsg },
         { st with executions := st.executions ++
            [{ recurring_order_id := oid
             , wallet_address := w
             , execution_date := now
             , amount := amt
             , source_token := srcT
             , target_token := tgtT
             , transaction_hash := txh
             , status := status
             , error_message := errMsg }] }) := rfl

/-- C9: an accepted creation request stores an order that is active, starts
at the creation instant, and is next due at `calculateNextExecutionDate`
of the requested frequency evaluated at the creation instant — the instant
plus the spec's interval for that frequency. -/
theorem C9_created_order_schedule (now : Int) (newId : String) (st : Store)
    (wallet : String) (orderType : OrderType) (sourceToken targetToken : String)
    (amount : ℚ) (frequency : String) (endDate : Option Int)
    (signature : Option String) :
    ∃ order st',
      createRecurringOrder false now newId st wallet orderType sourceToken
          targetToken amount frequency endDate signature =
        Except.ok (order, st') ∧
      order.is_active = true ∧
      order.start_date = now ∧
      order.next_execution_date = some (calculateNextExecutionDate frequency now) ∧
      order.next_execution_date = some (specFrequencyAdvance frequency now) ∧
      st' = { st with recurring_orders := st.recurring_orders ++ [order] } := by
  refine ⟨_, _, rfl, rfl, rfl, rfl, ?_, rfl⟩
  rw [calculateNextExecutionDate_eq_spec]

/-- Constant `EXECUTION_CONFIG.MAX_ORDERS_PER_RUN` from `config.ts`. -/
def MAX_ORDERS_PER_RUN : Nat := 100

/-- Constant `EXECUTION_CONFIG.MAX_RETRIES` from `config.ts`. -/
def EXECUTION_CONFIG_MAX_RETRIES : Nat := 3

/-- Constant `EXECUTION_CONFIG.RETRY_DELAY` from `config.ts` (milliseconds). -/
def EXECUTION_CONFIG_RETRY_DELAY : Nat := 5000

/-- Constant `API_CONFIG.RETRY_POLICY.MAX_ATTEMPTS` from `config.ts`. -/
def RETRY_POLICY_MAX_ATTEMPTS : Nat := 3

/-- Constant `API_CONFIG.RETRY_POLICY.INITIAL_DELAY_MS` from `config.ts`. -/
def RETRY_POLICY_INITIAL_DELAY_MS : Nat := 1000

/-- Constant `API_CONFIG.RETRY_POLICY.BACKOFF_MULTIPLIER` from `config.ts`. -/
def RETRY_POLICY_BACKOFF_MULTIPLIER : Nat := 2

/-- The sort key used for due-order ordering (`next_due_time`; due orders
always carry one). -/
def nextDueKey (o : RecurringOrder) : Int := o.next_execution_date.getD 0

/-- Modelled from the spec: a due order is active with `next_due_time <= T`
(the Edge Function implementing due-order selection is not part of the
repository snapshot; only its configuration and documentation are). -/
def isDueAt (now : Int) (o : RecurringOrder) : Bool :=
  o.is_active &&
    (match o.next_execution_date with
     | some t => t ≤ now
     | none => false)

/-- Modelled from the spec: due-order selection returns every active order
with `next_due_time <= now`, ordered by `next_due_time` ascending, capped at
`limit` (the Edge Function implementing it is not part of the repository
snapshot). -/
def fetchDue (now : Int) (limit : Nat) (orders : List RecurringOrder) :
    List RecurringOrder :=
  (List.insertionSort (fun a b => nextDueKey a ≤ nextDueKey b)
    (orders.filter (isDueAt now))).take limit

/-- Modelled from the spec: processing a due order advances `next_due_time`
to `calculateNextExecutionDate` of its frequency at the processing instant,
increments the execution counter, and deactivates the order when the new due
time exceeds its end date (the Edge Function implementing the run loop is
not part of the repository snapshot). -/
def advanceOrder (now : Int) (o : RecurringOrder) : RecurringOrder :=
  let next := calculateNextExecutionDate o.frequency now
  { o with
    next_execution_date := some next
  , execution_count := o.execution_count + 1
  , is_active :=
      match o.end_date with
      | some e => if e < next then false else o.is_active
      | none => o.is_active }

/-- Modelled from the spec: one Run selects the due batch and advances
exactly the selected orders, leaving every other order untouched. -/
def processRun (now : Int) (orders : List RecurringOrder) : List RecurringOrder :=
  let selected := fetchDue now MAX_ORDERS_PER_RUN orders
  orders.map (fun o => if o ∈ selected then advanceOrder now o else o)

instance : IsTotal RecurringOrder (fun a b => nextDueKey a ≤ nextDueKey b) :=
  ⟨fun a b => le_total (nextDueKey a) (nextDueKey b)⟩

instance : IsTrans RecurringOrder (fun a b => nextDueKey a ≤ nextDueKey b) :=
  ⟨fun _ _ _ => le_trans⟩

/-- C7: due-order selection at `now` returns only active, due orders, at
most the configured batch cap (100) of them — exactly
`min (number due) 100`, so 150 due orders yield a batch of 100 — ordered by
due time ascending and consisting of the earliest-due ones; a Run leaves
every unselected order untouched in the result. -/
theorem C7_due_selection_batching :
    MAX_ORDERS_PER_RUN = 100 ∧
    (∀ now orders,
      (fetchDue now MAX_ORDERS_PER_RUN orders).length =
        min (orders.filter (isDueAt now)).length 100) ∧
    (∀ now orders o, o ∈ fetchDue now MAX_ORDERS_PER_RUN orders →
      o ∈ orders ∧ o.is_active = true ∧ isDueAt now o = true) ∧
    (∀ now orders,
      List.Pairwise (fun a b => nextDueKey a ≤ nextDueKey b)
        (fetchDue now MAX_ORDERS_PER_RUN orders)) ∧
    (∀ now orders o u, o ∈ fetchDue now MAX_ORDERS_PER_RUN orders →
      u ∈ orders → isDueAt now u = true →
      u ∉ fetchDue now MAX_ORDERS_PER_RUN orders →
      nextDueKey o ≤ nextDueKey u) ∧
    (∀ now orders, (processRun now orders).length = orders.length) ∧
    (∀ now orders o, o ∈ orders → o ∉ fetchDue now MAX_ORDERS_PER_RUN orders →
      o ∈ processRun now orders) := by
  have hr : MAX_ORDERS_PER_RUN = 100 := rfl
  refine ⟨hr, ?_, ?_, ?_, ?_, ?_, ?_⟩
  · intro now orders
    unfold fetchDue
    rw [List.length_take, List.length_insertionSort, hr]
    exact Nat.min_comm 100 _
  · intro now orders o ho
    have h1 : o ∈ List.insertionSort (fun a b => nextDueKey a ≤ nextDueKey b)
        (orders.filter (isDueAt now)) := List.mem_of_mem_take ho
    have h2 : o ∈ orders.filter (isDueAt now) :=
      (List.perm_insertionSort _ _).mem_iff.mp h1
    have h3 := List.of_mem_filter h2
    refine ⟨List.mem_of_mem_filter h2, ?_, h3⟩
    unfold isDueAt at h3
    exact (Bool.and_eq_true _ _).mp h3 |>.1
  · intro now orders
    exact List.Pairwise.sublist (List.take_sublist _ _)
      (List.sorted_insertionSort (fun a b => nextDueKey a ≤ nextDueKey b) _)
  · intro now orders o u ho hu hdue hnotsel
    set s := List.insertionSort (fun a b => nextDueKey a ≤ nextDueKey b)
      (orders.filter (isDueAt now)) with hs
    have husort : u ∈ s := by
      rw [hs]
      exact (List.perm_insertionSort _ _).mem_iff.mpr
        (List.mem_filter.mpr ⟨hu, hdue⟩)
    have hsplit : List.take MAX_ORDERS_PER_RUN s ++ List.drop MAX_ORDERS_PER_RUN s = s :=
      List.take_append_drop _ _
    have hsorted : List.Pairwise (fun a b => nextDueKey a ≤ nextDueKey b) s :=
      List.sorted_insertionSort _ _
    rw [← hsplit] at hsorted husort
    rcases List.mem_append.mp husort with hl | hr2
    · exact absurd hl hnotsel
    · exact ((List.pairwise_append.mp hsorted).2.2) o ho u hr2
  · intro now orders
    unfold processRun
    exact List.length_map _ _
  · intro now orders o ho hnot
    unfold processRun
    simp only
    have : (if o ∈ fetchDue now MAX_ORDERS_PER_RUN orders
        then advanceOrder now o else o) = o := if_neg hnot
    rw [← this]
    exact List.mem_map_of_mem _ ho

/-- A second sample order, due later than `sampleOrder`. -/
def laterOrder : RecurringOrder :=
  { sampleOrder with
    id := "order-2"
  , next_execution_date := some 800 }

theorem C7_witness :
    sampleOrder ∈ fetchDue 1000 MAX_ORDERS_PER_RUN [sampleOrder, laterOrder] ∧
    sampleOrder ∈ [sampleOrder, laterOrder] ∧ sampleOrder.is_active = true ∧
    isDueAt 1000 sampleOrder = true ∧
    (fetchDue 1000 MAX_ORDERS_PER_RUN [sampleOrder, laterOrder]).length =
      min ([sampleOrder, laterOrder].filter (isDueAt 1000)).length 100 :=
  ⟨by decide, by decide, rfl, rfl,
   C7_due_selection_batching.2.1 1000 [sampleOrder, laterOrder]⟩

/-- Function `executeWithRetry` from `docs/RECURRING_ORDERS_EXECUTION.md`, the
engine's retry helper.  Attempt outcomes are supplied as `f`, indexed by the
1-based attempt number (a timed-out attempt is just one kind of error, per
the source's `Promise.race`).  The loop body and its observable effects are
returned: the outcome (`Except.error` carries the last stored error, `none`
when the loop never ran), the number of the last attempt executed
(`attempt - 1` when the loop never ran), and the list of back-off delays
waited, `delayMs * 2 ^ (attempt - 1)` after failed attempt `attempt` when
further attempts remain. -/
def executeWithRetryGo {E A : Type} (f : Nat → Except E A)
    (delayMs maxRetries attempt : Nat) (lastError : Option E) :
    Except (Option E) A × Nat × List Nat :=
  if h : attempt ≤ maxRetries then
    match f attempt with
    | Except.ok a => (Except.ok a, attempt, [])
    | Except.error e =>
      let rest := executeWithRetryGo f delayMs maxRetries (attempt + 1) (some e)
      if attempt < maxRetries then
        (rest.1, rest.2.1, delayMs * 2 ^ (attempt - 1) :: rest.2.2)
      else rest
  else (Except.error lastError, attempt - 1, [])
termination_by maxRetries + 1 - attempt

/-- Entry point `executeWithRetry(executeFunction, maxRetries = 3, delayMs = 5000)`:
run the loop from attempt 1 with no stored error. -/
def executeWithRetry {E A : Type} (f : Nat → Except E A)
    (maxRetries : Nat := 3) (delayMs : Nat := 5000) :
    Except (Option E) A × Nat × List Nat :=
  executeWithRetryGo f delayMs maxRetries 1 none

/-- Attempt-count bounds and the back-off delay trace of the retry loop:
from attempt `a` the loop executes attempts up to some `n ≤ maxRetries`
(`n = a - 1` when the loop never runs), waiting `delayMs * 2 ^ (k - 1)`
after each failed attempt `k < n`. -/
theorem executeWithRetryGo_spec {E A : Type} (f : Nat → Except E A)
    (delayMs maxRetries : Nat) :
    ∀ (fuel attempt : Nat) (lastError : Option E),
      maxRetries + 1 ≤ attempt + fuel → 1 ≤ attempt →
      ((attempt ≤ maxRetries →
        attempt ≤ (executeWithRetryGo f delayMs maxRetries attempt lastError).2.1 ∧
        (executeWithRetryGo f delayMs maxRetries attempt lastError).2.1 ≤ maxRetries) ∧
       (maxRetries < attempt →
        (executeWithRetryGo f delayMs maxRetries attempt lastError).2.1 = attempt - 1) ∧
       (executeWithRetryGo f delayMs maxRetries attempt lastError).2.2 =
         (List.range' (attempt - 1)
           ((executeWithRetryGo f delayMs maxRetries attempt lastError).2.1 - attempt)).map
           (fun i => delayMs * 2 ^ i)) := by
  intro fuel
  induction fuel with
  | zero =>
    intro attempt lastError hfuel h1
    rw [executeWithRetryGo, dif_neg (by omega : ¬ attempt ≤ maxRetries)]
    refine ⟨fun h => absurd h (by omega), fun _ => rfl, ?_⟩
    have hc : attempt - 1 - attempt = 0 := by omega
    simp only [hc, List.range', List.map_nil]
  | succ fuel ih =>
    intro attempt lastError hfuel h1
    by_cases hle : attempt ≤ maxRetries
    · rw [executeWithRetryGo, dif_pos hle]
      cases hf : f attempt with
      | ok a =>
        simp only
        refine ⟨fun _ => ⟨le_refl _, hle⟩, fun h => absurd hle (by omega), ?_⟩
        have hc : attempt - attempt = 0 := by omega
        simp only [hc, List.range', List.map_nil]
      | error e =>
        simp only
        have ihh := ih (attempt + 1) (some e) (by omega) (by omega)
        by_cases hlt : attempt < maxRetries
        · rw [if_pos hlt]
          simp only
          obtain ⟨hb, _, hds⟩ := ihh
          obtain ⟨hlo, hhi⟩ := hb (by omega)
          refine ⟨fun _ => ⟨by omega, hhi⟩, fun h => absurd hle (by omega), ?_⟩
          rw [hds]
          have hc : (executeWithRetryGo f delayMs maxRetries (attempt + 1) (some e)).2.1
              - attempt =
            ((executeWithRetryGo f delayMs maxRetries (attempt + 1) (some e)).2.1
              - (attempt + 1)) + 1 := by omega
          rw [hc, List.range'_succ, List.map_cons]
          have hc2 : attempt - 1 + 1 = attempt := by omega
          rw [hc2]
          norm_num
        · rw [if_neg hlt]
          have heq : attempt = maxRetries := by omega
          obtain ⟨_, hgt, hds⟩ := ihh
          have hn := hgt (by omega)
          refine ⟨fun _ => ⟨by omega, by omega⟩, fun h => absurd hle (by omega), ?_⟩
          rw [hds, hn]
          have hc1 : attempt + 1 - 1 - (attempt + 1) = 0 := by omega
          have hc2 : attempt + 1 - 1 - attempt = 0 := by omega
          simp only [hc1, hc2, List.range', List.map_nil]
    · rw [executeWithRetryGo, dif_neg hle]
      refine ⟨fun h => absurd h hle, fun _ => rfl, ?_⟩
      have hc : attempt - 1 - attempt = 0 := by omega
      simp only [hc, List.range', List.map_nil]

/-- When every remaining attempt fails, the loop runs to `maxRetries` and
throws the error of the final attempt. -/
theorem executeWithRetryGo_all_fail {E A : Type} (f : Nat → Except E A)
    (delayMs maxRetries : Nat) (errs : Nat → E) :
    ∀ (fuel attempt : Nat) (lastError : Option E),
      maxRetries + 1 ≤ attempt + fuel → 1 ≤ attempt → attempt ≤ maxRetries →
      (∀ k, attempt ≤ k → k ≤ maxRetries → f k = Except.error (errs k)) →
      (executeWithRetryGo f delayMs maxRetries attempt lastError).1 =
        Except.error (some (errs maxRetries)) ∧
      (executeWithRetryGo f delayMs maxRetries attempt lastError).2.1 = maxRetries := by
  intro fuel
  induction fuel with
  | zero =>
    intro attempt lastError hfuel h1 hle _
    omega
  | succ fuel ih =>
    intro attempt lastError hfuel h1 hle hf
    rw [executeWithRetryGo, dif_pos hle]
    rw [hf attempt (le_refl _) hle]
    simp only
    by_cases hlt : attempt < maxRetries
    · rw [if_pos hlt]
      exact ih (attempt + 1) (some (errs attempt)) (by omega) (by omega) (by omega)
        (fun k hk1 hk2 => hf k (by omega) hk2)
    · rw [if_neg hlt]
      have heq : attempt = maxRetries := by omega
      rw [executeWithRetryGo, dif_neg (by omega : ¬ attempt + 1 ≤ maxRetries)]
      subst heq
      exact ⟨rfl, rfl⟩

/-- C8: the retry helper makes at most `maxRetries` attempts (at least one
when `maxRetries ≥ 1`); after each failed attempt `k` that leaves retries
remaining it waits `delayMs * 2 ^ (k - 1)` (the delay trace is exactly
`[delayMs * 2 ^ 0, …]` over the non-final attempts made); and when every
attempt fails it throws the error of the final attempt instead of retrying
further.  The configured attempt maxima default to 3. -/
theorem C8_retry_backoff_policy :
    (∀ (E A : Type) (f : Nat → Except E A) (maxRetries delayMs : Nat),
      1 ≤ maxRetries →
      1 ≤ (executeWithRetry f maxRetries delayMs).2.1 ∧
      (executeWithRetry f maxRetries delayMs).2.1 ≤ maxRetries ∧
      (executeWithRetry f maxRetries delayMs).2.2 =
        (List.range' 0 ((executeWithRetry f maxRetries delayMs).2.1 - 1)).map
          (fun i => delayMs * 2 ^ i)) ∧
    (∀ (E A : Type) (f : Nat → Except E A) (maxRetries delayMs : Nat)
      (errs : Nat → E),
      1 ≤ maxRetries →
      (∀ k, 1 ≤ k → k ≤ maxRetries → f k = Except.error (errs k)) →
      (executeWithRetry f maxRetries delayMs).1 =
        Except.error (some (errs maxRetries)) ∧
      (executeWithRetry f maxRetries delayMs).2.1 = maxRetries) ∧
    EXECUTION_CONFIG_MAX_RETRIES = 3 ∧ RETRY_POLICY_MAX_ATTEMPTS = 3 := by
  refine ⟨?_, ?_, rfl, rfl⟩
  · intro E A f maxRetries delayMs hmax
    have h := executeWithRetryGo_spec f delayMs maxRetries (maxRetries + 1) 1 none
      (by omega) (by omega)
    obtain ⟨hb, _, hds⟩ := h
    obtain ⟨hlo, hhi⟩ := hb hmax
    exact ⟨hlo, hhi, hds⟩
  · intro E A f maxRetries delayMs errs hmax hf
    exact executeWithRetryGo_all_fail f delayMs maxRetries errs (maxRetries + 1) 1 none
      (by omega) (by omega) hmax hf

theorem C8_witness :
    1 ≤ (executeWithRetry (fun k => (Except.error k : Except Nat Nat)) 3 5000).2.1 ∧
    (executeWithRetry (fun k => (Except.error k : Except Nat Nat)) 3 5000).2.1 ≤ 3 ∧
    (executeWithRetry (fun k => (Except.error k : Except Nat Nat)) 3 5000).2.2 =
      (List.range' 0
        ((executeWithRetry (fun k => (Except.error k : Except Nat Nat)) 3 5000).2.1 - 1)).map
        (fun i => 5000 * 2 ^ i) ∧
    (executeWithRetry (fun k => (Except.error k : Except Nat Nat)) 3 5000).1 =
      Except.error (some 3) ∧
    (executeWithRetry (fun k => (Except.error k : Except Nat Nat)) 3 5000).2.1 = 3 :=
  ⟨(C8_retry_backoff_policy.1 Nat Nat (fun k => Except.error k) 3 5000 (by decide)).1,
   (C8_retry_backoff_policy.1 Nat Nat (fun k => Except.error k) 3 5000 (by decide)).2.1,
   (C8_retry_backoff_policy.1 Nat Nat (fun k => Except.error k) 3 5000 (by decide)).2.2,
   (C8_retry_backoff_policy.2.1 Nat Nat (fun k => Except.error k) 3 5000 (fun k => k)
     (by decide) (fun _ _ _ => rfl)).1,
   (C8_retry_backoff_policy.2.1 Nat Nat (fun k => Except.error k) 3 5000 (fun k => k)
     (by decide) (fun _ _ _ => rfl)).2⟩
